import Mathlib

/-!
Verification development for the wgpu-core command validation layer:
shallow embedding of `wgpu-core/src/command/clear.rs` and
`wgpu-core/src/command/compute.rs`, together with proofs of the spec's
testable properties.

External collaborators (resource registries, the usage tracker, the
memory-init tracker, the binder, `wgpu-types` helper functions) are not
part of the embedded source tree; they are modelled from the spec where
a claim depends on them, and each such definition is marked
`Modelled from the spec`.
-/

namespace Wgpu

/-- Modelled from the spec: the platform copy alignment for buffer
clear offsets and sizes (`wgt::COPY_BUFFER_ALIGNMENT`, 4 bytes). -/
def COPY_BUFFER_ALIGNMENT : Nat := 4

/-- Modelled from the spec: the bit of `hal::BufferUses::COPY_DST`
(the concrete bit value is irrelevant to the proofs). -/
def BufferUses.COPY_DST : Nat := 8

/-- Modelled from the spec: the bit of `hal::BufferUses::INDIRECT`. -/
def BufferUses.INDIRECT : Nat := 1024

/-- Kind of a memory-init action (`MemoryInitKind` in the source):
`implicitlyInit` models `ImplicitlyInitialized`, `needsInitMemory`
models `NeedsInitializedMemory`. -/
inductive MemoryInitKind
  | implicitlyInit
  | needsInitMemory
deriving DecidableEq

/-- A queued buffer memory-init action: resource id, byte range
`[start, stop)` and kind. -/
structure BufferInitAction where
  id : Nat
  start : Nat
  stop : Nat
  kind : MemoryInitKind
deriving DecidableEq

/-- The record the buffer registry holds for a buffer: declared size,
whether its declared usage contains `COPY_DST` / `INDIRECT`, and
whether the raw hal handle is still present (not destroyed). -/
structure BufferRecord where
  size : Nat
  usage_copy_dst : Bool
  usage_indirect : Bool
  raw : Bool
deriving DecidableEq

/-- Errors of `clear.rs` (`ClearError`), payloads reduced to the data
the claims talk about. -/
inductive ClearError
  | MissingClearCommandsFeature
  | InvalidCommandEncoder
  | InvalidBuffer (id : Nat)
  | InvalidTexture (id : Nat)
  | UnalignedFillSize (size : Nat)
  | UnalignedBufferOffset (offset : Nat)
  | BufferOverrun (start_offset end_offset buffer_size : Nat)
  | MissingCopyDstUsageFlag (buffer : Option Nat) (texture : Option Nat)
  | MissingTextureAspect
  | DepthStencilFormatNotSupported
  | MultisampledTextureUnsupported
  | InvalidTextureLevelRange (texture_level_range : Nat × Nat)
      (base_mip_level : Nat) (mip_level_count : Option Nat)
  | InvalidTextureLayerRange (texture_layer_range : Nat × Nat)
      (base_array_layer : Nat) (array_layer_count : Option Nat)
deriving DecidableEq

/-- Region of a synthesized buffer-to-texture copy
(`hal::BufferTextureCopy`): the image-data layout's bytes-per-row
(offset is always 0, rows-per-image always none in the source),
the target mip level and array layer, the origin `(x, y, z)` and the
copy extent `(width, height, depth)`. -/
structure BufferTextureCopy where
  bytes_per_row : Nat
  mip_level : Nat
  array_layer : Nat
  origin_x : Nat
  origin_y : Nat
  origin_z : Nat
  size_width : Nat
  size_height : Nat
  size_depth : Nat
deriving DecidableEq

/-- Native (hal) calls emitted by the embedded functions, in order. -/
inductive HalCall
  | transition_buffers (barrier : Option (Nat × Nat × Nat))
  | clear_buffer (id : Nat) (start stop : Nat)
  | transition_textures (barrier : Option (Nat × Nat × Nat))
  | copy_buffer_to_texture (dst : Nat) (regions : List BufferTextureCopy)
  | begin_compute_pass
  | end_compute_pass
  | set_bind_group (layout : Nat) (index : Nat) (group : Nat) (offsets : List Nat)
  | set_compute_pipeline (id : Nat)
  | set_push_constants (offset : Nat) (data : List Nat)
  | dispatch (groups : Nat × Nat × Nat)
  | dispatch_indirect (buffer : Nat) (offset : Nat)
  | barrier_flush
  | fixup_discarded_surfaces (fixups : List Nat)
  | begin_debug_marker (label : List Nat)
  | end_debug_marker
  | insert_debug_marker_call (label : List Nat)
  | write_timestamp (query_set : Nat) (index : Nat)
  | begin_pipeline_statistics_query (query_set : Nat) (index : Nat)
  | end_pipeline_statistics_query
deriving DecidableEq

/-- Update an association list, replacing any previous binding of `k`. -/
def assocInsert (l : List (Nat × Nat)) (k v : Nat) : List (Nat × Nat) :=
  (k, v) :: l.filter (fun p => p.1 != k)

/-- Modelled from the spec (§4.1): `use_replace` on the buffer usage
tracker. Looks the buffer up in the registry (failure means an invalid
or destroyed id), records the new usage as the tracker's current state
and returns the pending transition: empty when there was no prior
state or the prior state equals the requested one, `(old, new)`
otherwise. -/
def use_replace (tracker : List (Nat × Nat)) (buffers : List (Nat × BufferRecord))
    (id usage : Nat) :
    Option (BufferRecord × Option (Nat × Nat) × List (Nat × Nat)) :=
  match buffers.lookup id with
  | none => none
  | some b =>
    let pending : Option (Nat × Nat) :=
      match tracker.lookup id with
      | none => none
      | some old => if old = usage then none else some (old, usage)
    some (b, pending, assocInsert tracker id usage)

/-- Modelled from the spec (§4.2): `create_action(range, kind)` appends
one action for the requested range to the command buffer's pending
list. -/
def create_action (id start stop : Nat) (kind : MemoryInitKind) :
    List BufferInitAction :=
  [{ id := id, start := start, stop := stop, kind := kind }]

/-- The slice of command-buffer state that `clear_buffer` touches:
whether `get_encoder_mut` succeeds (the encoder is valid and in the
`Recording` state), the `support_clear_buffer_texture` capability flag,
and the buffer usage tracker. -/
structure CmdBufClear where
  valid : Bool
  support_clear_buffer_texture : Bool
  buffer_tracker : List (Nat × Nat)
  texture_tracker : List (Nat × Nat)
deriving DecidableEq

/-- Observable effects of one `clear_buffer` call: the usage-transition
requests made on the destination buffer tracker, the tracker's final
state, the recorded memory-init actions and the emitted native calls. -/
structure ClearEffects where
  requests : List (Nat × Nat)
  tracker : List (Nat × Nat)
  init_actions : List BufferInitAction
  calls : List HalCall
deriving DecidableEq

/-- Embedding of `Global::command_encoder_clear_buffer`
(`clear.rs`): validation order, the empty-range early return, the
init-action recording and the hal barrier + zero-fill emission follow
the source line by line. -/
def command_encoder_clear_buffer (buffers : List (Nat × BufferRecord))
    (cb : CmdBufClear) (dst : Nat) (offset : Nat) (size : Option Nat) :
    Except ClearError Unit × ClearEffects :=
  let eff0 : ClearEffects :=
    { requests := [], tracker := cb.buffer_tracker, init_actions := [], calls := [] }
  if cb.valid = false then (.error .InvalidCommandEncoder, eff0)
  else if cb.support_clear_buffer_texture = false then
    (.error .MissingClearCommandsFeature, eff0)
  else
    match use_replace cb.buffer_tracker buffers dst BufferUses.COPY_DST with
    | none => (.error (.InvalidBuffer dst), eff0)
    | some (dst_buffer, dst_pending, tracker1) =>
      let eff1 : ClearEffects :=
        { eff0 with requests := [(dst, BufferUses.COPY_DST)], tracker := tracker1 }
      if dst_buffer.raw = false then (.error (.InvalidBuffer dst), eff1)
      else if dst_buffer.usage_copy_dst = false then
        (.error (.MissingCopyDstUsageFlag (some dst) none), eff1)
      else if offset % COPY_BUFFER_ALIGNMENT ≠ 0 then
        (.error (.UnalignedBufferOffset offset), eff1)
      else
        let size_check : Option ClearError :=
          match size with
          | some s =>
            if s % COPY_BUFFER_ALIGNMENT ≠ 0 then some (.UnalignedFillSize s)
            else if offset + s > dst_buffer.size then
              some (.BufferOverrun offset (offset + s) dst_buffer.size)
            else none
          | none => none
        match size_check with
        | some e => (.error e, eff1)
        | none =>
          let stop : Nat :=
            match size with
            | some s => offset + s
            | none => dst_buffer.size
          if offset = stop then (.ok (), eff1)
          else
            (.ok (), { eff1 with
              init_actions := create_action dst offset stop .implicitlyInit,
              calls :=
                [HalCall.transition_buffers
                  (dst_pending.map (fun p => (dst, p.1, p.2))),
                 HalCall.clear_buffer dst offset stop] })

/-- Recognizer for the native zero-fill call on a buffer. -/
def is_zero_fill : HalCall → Bool
  | .clear_buffer _ _ _ => true
  | _ => false

instance {ε α : Type} [DecidableEq ε] [DecidableEq α] :
    DecidableEq (Except ε α) := fun a b =>
  match a, b with
  | .ok a, .ok b =>
    if h : a = b then isTrue (by rw [h])
    else isFalse (by intro hc; cases hc; exact h rfl)
  | .ok _, .error _ => isFalse (by intro hc; cases hc)
  | .error _, .ok _ => isFalse (by intro hc; cases hc)
  | .error e, .error f =>
    if h : e = f then isTrue (by rw [h])
    else isFalse (by intro hc; cases hc; exact h rfl)

/-- A sample buffer registry entry used by concrete witnesses. -/
def b0 : BufferRecord :=
  { size := 16, usage_copy_dst := true, usage_indirect := false, raw := true }

/-- A sample command-buffer state used by concrete witnesses. -/
def cb0 : CmdBufClear :=
  { valid := true, support_clear_buffer_texture := true,
    buffer_tracker := [], texture_tracker := [] }

/-- A sample buffer registry used by concrete witnesses. -/
def bufs0 : List (Nat × BufferRecord) := [(1, b0)]

/-! ### Texture clearing (`clear.rs`: `command_encoder_clear_texture`
and `collect_zero_buffer_copies_for_clear_texture`) -/

/-- Modelled from the spec: `align_to` from the crate root — round
`value` up to the next multiple of `alignment` (§4.3 step 2). -/
def align_to (value alignment : Nat) : Nat :=
  if value % alignment = 0 then value else value - value % alignment + alignment

/-- Modelled from the spec: `get_lowest_common_denom` from the crate
root — the least common multiple of the two alignments (§4.3 step 2
"aligned up to `lcm(required_copy_pitch_alignment, block_size)`"). -/
def get_lowest_common_denom (a b : Nat) : Nat := Nat.lcm a b

/-- `wgt::TextureDimension`. -/
inductive TextureDimension
  | D1
  | D2
  | D3
deriving DecidableEq

/-- `wgt::Extent3d`. -/
structure Extent3d where
  width : Nat
  height : Nat
  depth_or_array_layers : Nat
deriving DecidableEq

/-- `hal::FormatAspects` as three flags. -/
structure FormatAspects where
  color : Bool
  depth : Bool
  stencil : Bool
deriving DecidableEq

/-- Intersection of aspect sets (`&` on `hal::FormatAspects`). -/
def FormatAspects.inter (a b : FormatAspects) : FormatAspects :=
  ⟨a.color && b.color, a.depth && b.depth, a.stencil && b.stencil⟩

/-- `FormatAspects::is_empty`. -/
def FormatAspects.is_empty (a : FormatAspects) : Bool :=
  !a.color && !a.depth && !a.stencil

/-- `wgt::TextureAspect` of a subresource range. -/
inductive TextureAspect
  | All
  | StencilOnly
  | DepthOnly
deriving DecidableEq

/-- `hal::FormatAspects::from(TextureAspect)`. -/
def FormatAspects.from_aspect : TextureAspect → FormatAspects
  | .All => ⟨true, true, true⟩
  | .StencilOnly => ⟨false, false, true⟩
  | .DepthOnly => ⟨false, true, false⟩

/-- The parts of `wgt::TextureFormat::describe()` and
`hal::FormatAspects::from(format)` the embedded code reads: whether
the described sample type is `Depth`, the compressed-block size in
bytes and dimensions, and the format's available aspects. -/
structure TextureFormatInfo where
  sample_type_depth : Bool
  block_size : Nat
  block_w : Nat
  block_h : Nat
  aspects : FormatAspects
deriving DecidableEq

/-- `wgt::TextureDescriptor` (label and unused fields dropped). -/
structure TextureDescriptor where
  format : TextureFormatInfo
  dimension : TextureDimension
  size : Extent3d
  mip_level_count : Nat
  sample_count : Nat
  usage_copy_dst : Bool
deriving DecidableEq

/-- Modelled from the spec: `TextureDescriptor::mip_level_size` from
`wgpu-types` — none when the level is out of range; otherwise each of
width and height is halved per level with a floor of 1, and depth is
halved only for 3D textures. -/
def mip_level_size (desc : TextureDescriptor) (level : Nat) : Option Extent3d :=
  if desc.mip_level_count ≤ level then none
  else some
    { width := max 1 (desc.size.width / 2 ^ level),
      height := max 1 (desc.size.height / 2 ^ level),
      depth_or_array_layers :=
        if desc.dimension = .D3 then
          max 1 (desc.size.depth_or_array_layers / 2 ^ level)
        else desc.size.depth_or_array_layers }

/-- The mip's width after rounding up to the format's block width
(`mip_size.width` after the `align_to` in `clear.rs:299`). -/
def aligned_width (desc : TextureDescriptor) (mip : Nat) : Nat :=
  align_to (max 1 (desc.size.width / 2 ^ mip)) desc.format.block_w

/-- The mip's height after rounding up to the format's block height
(`mip_size.height` after the `align_to` in `clear.rs:300`). -/
def aligned_height (desc : TextureDescriptor) (mip : Nat) : Nat :=
  align_to (max 1 (desc.size.height / 2 ^ mip)) desc.format.block_h

/-- The bytes-per-row of the synthesized copies for a mip level
(`clear.rs:302-305`). -/
def bytes_per_row (desc : TextureDescriptor) (pitch mip : Nat) : Nat :=
  align_to (aligned_width desc mip / desc.format.block_w * desc.format.block_size)
    (get_lowest_common_denom pitch desc.format.block_size)

/-- The scratch-buffer row capacity for a mip level, rounded down to a
multiple of the format's block height (`clear.rs:307-310`). -/
def max_rows_per_copy (desc : TextureDescriptor) (pitch zbs mip : Nat) : Nat :=
  zbs / bytes_per_row desc pitch mip / desc.format.block_h * desc.format.block_h

/-- Number of depth slices iterated for a mip level (`clear.rs:314-318`):
the mip's depth for 3D textures, one otherwise. -/
def z_count (desc : TextureDescriptor) (mip : Nat) : Nat :=
  if desc.dimension = .D3 then max 1 (desc.size.depth_or_array_layers / 2 ^ mip)
  else 1

/-- The fatal configuration errors of the region-synthesis routine:
`mipLevelOutOfRange` models the `.unwrap()` on `mip_level_size`
(`clear.rs:297`), `zeroBufferTooSmall` the `assert!` on
`max_rows_per_copy` (`clear.rs:311`). -/
inductive CollectAbort
  | mipLevelOutOfRange
  | zeroBufferTooSmall
deriving DecidableEq

/-- Fuel-indexed form of the inner row loop; the fuel only bounds the
recursion depth and is irrelevant once it is at least `left`. -/
def row_chunks_go (total maxRows : Nat) : Nat → Nat → List (Nat × Nat)
  | 0, _ => []
  | fuel + 1, left =>
    if left = 0 then []
    else if maxRows = 0 then []
    else (total - left, min left maxRows) ::
      row_chunks_go total maxRows fuel (left - min left maxRows)

/-- The inner `while num_rows_left > 0` loop of
`collect_zero_buffer_copies_for_clear_texture` (`clear.rs:324-352`):
split `left` remaining rows into consecutive chunks of at most
`maxRows`, emitting `(y_origin, row_count)` pairs where
`y_origin = total - left`. The `maxRows = 0` guard is unreachable
under the source's assertion and stands in for its divergence. -/
def row_chunks (total maxRows left : Nat) : List (Nat × Nat) :=
  row_chunks_go total maxRows left left

/-- One mip level of `collect_zero_buffer_copies_for_clear_texture`
(`clear.rs:296-355`): compute the block-aligned mip extent, the
bytes-per-row and the scratch row capacity, abort on the assertion,
then emit one region per (layer, depth slice, row chunk). -/
def collect_mip (desc : TextureDescriptor) (pitch zbs : Nat)
    (layer_range : Nat × Nat) (mip : Nat) :
    Except CollectAbort (List BufferTextureCopy) :=
  match mip_level_size desc mip with
  | none => .error .mipLevelOutOfRange
  | some ms =>
    let width := align_to ms.width desc.format.block_w
    let height := align_to ms.height desc.format.block_h
    let bpr := align_to (width / desc.format.block_w * desc.format.block_size)
      (get_lowest_common_denom pitch desc.format.block_size)
    let mrpc := zbs / bpr / desc.format.block_h * desc.format.block_h
    if mrpc = 0 then .error .zeroBufferTooSmall
    else
      let zc := if desc.dimension = .D3 then ms.depth_or_array_layers else 1
      .ok ((List.range' layer_range.1 (layer_range.2 - layer_range.1)).flatMap
        fun layer => (List.range zc).flatMap
          fun z => (row_chunks height mrpc height).map
            fun c =>
              { bytes_per_row := bpr, mip_level := mip, array_layer := layer,
                origin_x := 0, origin_y := c.1, origin_z := z,
                size_width := width, size_height := c.2, size_depth := 1 })

/-- The mip-level loop of `collect_zero_buffer_copies_for_clear_texture`,
concatenating the regions of each level and propagating the first
abort. -/
def collect_mips (desc : TextureDescriptor) (pitch zbs : Nat)
    (layer_range : Nat × Nat) :
    List Nat → Except CollectAbort (List BufferTextureCopy)
  | [] => .ok []
  | m :: rest =>
    match collect_mip desc pitch zbs layer_range m with
    | .error e => .error e
    | .ok rs =>
      match collect_mips desc pitch zbs layer_range rest with
      | .error e => .error e
      | .ok rest_rs => .ok (rs ++ rest_rs)

/-- Embedding of `collect_zero_buffer_copies_for_clear_texture`
(`clear.rs:284-356`). `zbs` is the capacity of the device's
pre-zeroed scratch buffer (`crate::device::ZERO_BUFFER_SIZE`), passed
as a parameter since the device module is outside the embedded tree. -/
def collect_zero_buffer_copies_for_clear_texture (desc : TextureDescriptor)
    (pitch zbs : Nat) (mip_range layer_range : Nat × Nat) :
    Except CollectAbort (List BufferTextureCopy) :=
  collect_mips desc pitch zbs layer_range
    (List.range' mip_range.1 (mip_range.2 - mip_range.1))

/-- Modelled from the spec: the bit of `hal::TextureUses::COPY_DST`. -/
def TextureUses.COPY_DST : Nat := 2

/-- The record the texture registry holds for a texture: its
descriptor, the texture's full mip-level and array-layer ranges, and
whether the raw hal handle is still present. -/
structure TextureRecord where
  desc : TextureDescriptor
  full_levels : Nat × Nat
  full_layers : Nat × Nat
  raw : Bool
deriving DecidableEq

/-- `wgt::ImageSubresourceRange`. -/
structure ImageSubresourceRange where
  aspect : TextureAspect
  base_mip_level : Nat
  mip_level_count : Option Nat
  base_array_layer : Nat
  array_layer_count : Option Nat
deriving DecidableEq

/-- Modelled from the spec (§4.1): `use_replace` on the texture usage
tracker over the requested selector; internal selector splitting is
not observable by any claim and is omitted. -/
def texture_use_replace (tracker : List (Nat × Nat))
    (textures : List (Nat × TextureRecord)) (id usage : Nat) :
    Option (TextureRecord × Option (Nat × Nat) × List (Nat × Nat)) :=
  match textures.lookup id with
  | none => none
  | some t =>
    let pending : Option (Nat × Nat) :=
      match tracker.lookup id with
      | none => none
      | some old => if old = usage then none else some (old, usage)
    some (t, pending, assocInsert tracker id usage)

/-- Outcome of `command_encoder_clear_texture`: either the region
synthesis aborted the process (unwrap/assert), or the call completed
with a result and a list of emitted native calls. -/
inductive ClearTextureOutcome
  | panicked (why : CollectAbort)
  | completed (result : Except ClearError Unit) (calls : List HalCall)
deriving DecidableEq

/-- Embedding of `Global::command_encoder_clear_texture`
(`clear.rs:155-281`): validation order (capability, lookup, aspects,
format, sample count, level range, layer range, tracker, raw handle,
usage), then region synthesis and the barrier + copy emission. -/
def command_encoder_clear_texture (textures : List (Nat × TextureRecord))
    (cb : CmdBufClear) (dst : Nat) (sr : ImageSubresourceRange)
    (pitch zbs : Nat) : ClearTextureOutcome :=
  if cb.valid = false then .completed (.error .InvalidCommandEncoder) []
  else if cb.support_clear_buffer_texture = false then
    .completed (.error .MissingClearCommandsFeature) []
  else
    match textures.lookup dst with
    | none => .completed (.error (.InvalidTexture dst)) []
    | some dst_texture =>
      let requested_aspects := FormatAspects.from_aspect sr.aspect
      let clear_aspects :=
        FormatAspects.inter dst_texture.desc.format.aspects requested_aspects
      if clear_aspects.is_empty = true then
        .completed (.error .MissingTextureAspect) []
      else if dst_texture.desc.format.sample_type_depth = true then
        .completed (.error .DepthStencilFormatNotSupported) []
      else if 1 < dst_texture.desc.sample_count then
        .completed (.error .MultisampledTextureUnsupported) []
      else
        let subresource_level_end :=
          match sr.mip_level_count with
          | some count => sr.base_mip_level + count
          | none => dst_texture.full_levels.2
        if dst_texture.full_levels.1 > sr.base_mip_level ∨
            dst_texture.full_levels.2 < subresource_level_end then
          .completed (.error (.InvalidTextureLevelRange dst_texture.full_levels
            sr.base_mip_level sr.mip_level_count)) []
        else
          let subresource_layer_end :=
            match sr.array_layer_count with
            | some count => sr.base_array_layer + count
            | none => dst_texture.full_layers.2
          if dst_texture.full_layers.1 > sr.base_array_layer ∨
              dst_texture.full_layers.2 < subresource_layer_end then
            .completed (.error (.InvalidTextureLayerRange dst_texture.full_layers
              sr.base_array_layer sr.array_layer_count)) []
          else
            match texture_use_replace cb.texture_tracker textures dst
              TextureUses.COPY_DST with
            | none => .completed (.error (.InvalidTexture dst)) []
            | some (dst_texture, dst_pending, _) =>
              if dst_texture.raw = false then
                .completed (.error (.InvalidTexture dst)) []
              else if dst_texture.desc.usage_copy_dst = false then
                .completed (.error (.MissingCopyDstUsageFlag none (some dst))) []
              else
                match collect_zero_buffer_copies_for_clear_texture
                  dst_texture.desc pitch zbs
                  (sr.base_mip_level, subresource_level_end)
                  (sr.base_array_layer, subresource_layer_end) with
                | .error why => .panicked why
                | .ok regions =>
                  .completed (.ok ())
                    ([HalCall.transition_textures
                        (dst_pending.map (fun p => (dst, p.1, p.2)))] ++
                     (if regions.isEmpty = true then []
                      else [HalCall.copy_buffer_to_texture dst regions]))

/-- A depth-format sample texture used by concrete witnesses. -/
def texDepth : TextureRecord :=
  { desc :=
      { format :=
          { sample_type_depth := true, block_size := 4, block_w := 1,
            block_h := 1, aspects := ⟨false, true, false⟩ },
        dimension := .D2, size := ⟨4, 4, 1⟩, mip_level_count := 1,
        sample_count := 1, usage_copy_dst := true },
    full_levels := (0, 1), full_layers := (0, 1), raw := true }

/-- A multisampled color texture used by concrete witnesses. -/
def texMS : TextureRecord :=
  { desc :=
      { format :=
          { sample_type_depth := false, block_size := 4, block_w := 1,
            block_h := 1, aspects := ⟨true, false, false⟩ },
        dimension := .D2, size := ⟨4, 4, 1⟩, mip_level_count := 1,
        sample_count := 4, usage_copy_dst := true },
    full_levels := (0, 1), full_layers := (0, 1), raw := true }

/-- A sample texture registry used by concrete witnesses. -/
def texs0 : List (Nat × TextureRecord) := [(1, texDepth), (2, texMS)]

/-- A full subresource range used by concrete witnesses. -/
def sr0 : ImageSubresourceRange :=
  { aspect := .All, base_mip_level := 0, mip_level_count := none,
    base_array_layer := 0, array_layer_count := none }

/-- The copy region emitted for one row chunk `c = (y, rows)` of a mip
level: origin `(0, y, z)`, extent (full block-aligned row width,
chunk rows, one slice). -/
def region_for (desc : TextureDescriptor) (pitch mip layer z : Nat)
    (c : Nat × Nat) : BufferTextureCopy :=
  { bytes_per_row := bytes_per_row desc pitch mip, mip_level := mip,
    array_layer := layer, origin_x := 0, origin_y := c.1, origin_z := z,
    size_width := aligned_width desc mip, size_height := c.2,
    size_depth := 1 }

/-- The chunks in a list are consecutive: each entry's first component
is the running total of the second components, starting at `y`. -/
inductive ChunkShape : Nat → List (Nat × Nat) → Prop
  | nil (y : Nat) : ChunkShape y []
  | cons (y n : Nat) (rest : List (Nat × Nat)) :
      ChunkShape (y + n) rest → ChunkShape y ((y, n) :: rest)

/-! ### Compute passes (`compute.rs`) -/

/-- `CommandEncoderStatus` (§3 `EncoderStatus`). -/
inductive CommandEncoderStatus
  | Recording
  | Finished
  | Error
deriving DecidableEq

/-- The opcodes of a recorded compute pass (`ComputeCommand`);
variable-length payloads live in the `BasePass` side-buffers and the
opcodes carry only counts/cursors, exactly as in the source. -/
inductive ComputeCommand
  | SetBindGroup (index : Nat) (num_dynamic_offsets : Nat) (bind_group_id : Nat)
  | SetPipeline (pipeline_id : Nat)
  | SetPushConstant (offset : Nat) (size_bytes : Nat) (values_offset : Nat)
  | Dispatch (groups : Nat × Nat × Nat)
  | DispatchIndirect (buffer_id : Nat) (offset : Nat)
  | PushDebugGroup (color : Nat) (len : Nat)
  | PopDebugGroup
  | InsertDebugMarker (color : Nat) (len : Nat)
  | WriteTimestamp (query_set_id : Nat) (query_index : Nat)
  | BeginPipelineStatisticsQuery (query_set_id : Nat) (query_index : Nat)
  | EndPipelineStatisticsQuery
deriving DecidableEq

/-- `BasePass`: the opcode stream plus the three parallel growable
side-buffers (dynamic-offset words, push-constant words, debug-label
bytes). -/
structure BasePass where
  commands : List ComputeCommand
  dynamic_offsets : List Nat
  push_constant_data : List Nat
  string_data : List Nat
deriving DecidableEq

/-- `DispatchError`. -/
inductive DispatchError
  | MissingPipeline
  | IncompatibleBindGroup (index : Nat)
  | InvalidGroupSize (current : Nat × Nat × Nat) (limit : Nat)
deriving DecidableEq

/-- `ComputePassErrorInner`; error payloads of external collaborators
(bind, push-constant, query validation) are collapsed to their
variant. -/
inductive ComputePassErrorInner
  | Encoder
  | InvalidBindGroup (id : Nat)
  | BindGroupIndexOutOfRange (index : Nat) (max : Nat)
  | InvalidPipeline (id : Nat)
  | InvalidQuerySet (id : Nat)
  | InvalidIndirectBuffer (id : Nat)
  | IndirectBufferOverrun (offset end_offset buffer_size : Nat)
  | ResourceUsageConflict
  | MissingBufferUsage
  | InvalidPopDebugGroup
  | Dispatch (e : DispatchError)
  | Bind
  | PushConstants
  | QueryUse
  | MissingDownlevelFlags
deriving DecidableEq

/-- `PassErrorScope`: the scope wrapped around a failing opcode's
error by `map_pass_err`. -/
inductive PassErrorScope
  | Pass
  | SetBindGroup (id : Nat)
  | SetPipelineCompute (id : Nat)
  | SetPushConstant
  | Dispatch (indirect : Bool) (pipeline : Option Nat)
  | PopDebugGroup
  | WriteTimestamp
  | BeginPipelineStatisticsQuery
  | EndPipelineStatisticsQuery
deriving DecidableEq

/-- `ComputePassError`: scope plus inner error. -/
structure ComputePassError where
  scope : PassErrorScope
  inner : ComputePassErrorInner
deriving DecidableEq

/-- Modelled from the spec (§3 `BinderState`, §4.5): the binder state
the executor reads — the pipeline layout bound at the last
`SetPipeline`, the invalid-slot bitmask consulted by `is_ready`, and
the list of currently active bind group ids merged at dispatch time. -/
structure BinderSt where
  pipeline_layout_id : Option Nat
  invalid_mask : Nat
  active_groups : List Nat
deriving DecidableEq

/-- Modelled from the spec (§4.5): a bind-group entry the binder asks
the executor to (re)bind natively. -/
structure BindEntry where
  group_id : Nat
  dynamic_offsets : List Nat
deriving DecidableEq

/-- Modelled from the spec (§6): the external collaborators of the
pass executor — device limits and capabilities, the resource
registries, the bind-group validator, the binder's assignment and
layout-change computations, the memory-init checker, the tracker merge
and the query-set validator — bundled as oracle functions. -/
structure ComputeEnv where
  max_bind_groups : Nat
  max_compute_workgroups_per_dimension : Nat
  indirect_execution : Bool
  lookup_bind_group : Nat → Bool
  validate_dynamic_bindings : Nat → List Nat → Bool
  group_buffer_init_actions : Nat → List BufferInitAction
  group_texture_fixups : Nat → List Nat
  assign_group : BinderSt → Nat → Nat → List Nat → BinderSt × List BindEntry
  lookup_pipeline : Nat → Option Nat
  change_pipeline_layout : BinderSt → Nat → BinderSt × Nat × List BindEntry
  layout_push_constant_ranges : Nat → List (Nat × Nat)
  validate_push_constant_ranges : Nat → Nat → Nat → Bool
  lookup_buffer : Nat → Option BufferRecord
  flush_conflict : List Nat → Bool
  lookup_query_set : Nat → Bool
  write_timestamp_ok : Nat → Nat → Bool
  begin_stat_query_ok : Nat → Nat → Bool

/-- The executor's mutable state during one replay: the owning command
buffer's status, the binder, the `StateChange` pipeline cell, the
debug-scope depth, the pending discard-fixup list, the two
side-buffer cursors, the command buffer's queued memory-init actions,
the active statistics query and the emitted native calls in order. -/
structure PassState where
  status : CommandEncoderStatus
  binder : BinderSt
  pipeline : Option Nat
  debug_scope_depth : Nat
  pending_discard_init_fixups : List Nat
  dynamic_offset_count : Nat
  string_offset : Nat
  buffer_memory_init_actions : List BufferInitAction
  active_query : Option Nat
  trace : List HalCall
deriving DecidableEq

/-- Fuel-indexed count of trailing zero bits. -/
def trailing_zeros_go : Nat → Nat → Nat
  | 0, _ => 0
  | fuel + 1, n => if n % 2 = 1 ∨ n = 0 then 0 else trailing_zeros_go fuel (n / 2) + 1

/-- `u32::trailing_zeros` on the invalid-slot bitmask (first invalid
slot index). -/
def trailing_zeros (n : Nat) : Nat := trailing_zeros_go n n

/-- `State::is_ready` (`compute.rs:227-240`): an invalid bind-group
slot is reported first, then a missing pipeline. -/
def is_ready (s : PassState) : Option DispatchError :=
  if s.binder.invalid_mask ≠ 0 then
    some (.IncompatibleBindGroup (trailing_zeros s.binder.invalid_mask))
  else if s.pipeline = none then some .MissingPipeline
  else none

/-- Result of one opcode step: the next state, a scoped error carrying
the state mutated so far (the command buffer keeps those mutations),
or a process abort (side-buffer decode out of bounds). -/
inductive StepRes
  | ok (s : PassState)
  | fail (e : ComputePassError) (s : PassState)
  | panic
deriving DecidableEq

/-- Embedding of one iteration of the opcode replay loop of
`command_encoder_run_compute_pass_impl` (`compute.rs:340-708`): one
match arm per opcode, in source order, with the external
collaborators' behavior supplied by `env`. -/
def exec_command (env : ComputeEnv) (base : BasePass) (s : PassState) :
    ComputeCommand → StepRes
  | .SetBindGroup index num_dynamic_offsets bind_group_id =>
    if env.max_bind_groups ≤ index then
      .fail ⟨.SetBindGroup bind_group_id,
        .BindGroupIndexOutOfRange index env.max_bind_groups⟩ s
    else if base.dynamic_offsets.length <
        s.dynamic_offset_count + num_dynamic_offsets then .panic
    else
      let temp_offsets :=
        (base.dynamic_offsets.drop s.dynamic_offset_count).take
          num_dynamic_offsets
      let s1 := { s with dynamic_offset_count :=
        s.dynamic_offset_count + num_dynamic_offsets }
      if env.lookup_bind_group bind_group_id = false then
        .fail ⟨.SetBindGroup bind_group_id,
          .InvalidBindGroup bind_group_id⟩ s1
      else if env.validate_dynamic_bindings bind_group_id temp_offsets
          = false then
        .fail ⟨.SetBindGroup bind_group_id, .Bind⟩ s1
      else
        let s2 := { s1 with
          buffer_memory_init_actions := s1.buffer_memory_init_actions ++
            env.group_buffer_init_actions bind_group_id,
          pending_discard_init_fixups := s1.pending_discard_init_fixups ++
            env.group_texture_fixups bind_group_id }
        let pipeline_layout_id := s2.binder.pipeline_layout_id
        let assigned := env.assign_group s2.binder index bind_group_id
          temp_offsets
        if assigned.2.isEmpty = true then .ok { s2 with binder := assigned.1 }
        else
          match pipeline_layout_id with
          | none => .panic
          | some layout =>
            .ok { s2 with
                  binder := assigned.1,
                  trace := s2.trace ++ assigned.2.enum.map (fun p =>
                    HalCall.set_bind_group layout (index + p.1) p.2.group_id
                      p.2.dynamic_offsets) }
  | .SetPipeline pipeline_id =>
    if s.pipeline = some pipeline_id then .ok { s with pipeline := some pipeline_id }
    else
      let s1 := { s with pipeline := some pipeline_id }
      match env.lookup_pipeline pipeline_id with
      | none =>
        .fail ⟨.SetPipelineCompute pipeline_id,
          .InvalidPipeline pipeline_id⟩ s1
      | some layout_id =>
        let s2 := { s1 with trace := s1.trace ++
          [HalCall.set_compute_pipeline pipeline_id] }
        if s2.binder.pipeline_layout_id = some layout_id then .ok s2
        else
          let changed := env.change_pipeline_layout s2.binder layout_id
          let binder3 := { changed.1 with pipeline_layout_id := some layout_id }
          let bind_calls := changed.2.2.enum.map (fun p =>
            HalCall.set_bind_group layout_id (changed.2.1 + p.1)
              p.2.group_id p.2.dynamic_offsets)
          let clear_calls := (env.layout_push_constant_ranges layout_id).map
            (fun r => HalCall.set_push_constants r.1
              (List.replicate ((r.2 - r.1) / 4) 0))
          .ok { s2 with
                binder := binder3,
                trace := s2.trace ++ bind_calls ++ clear_calls }
  | .SetPushConstant offset size_bytes values_offset =>
    let values_end_offset := values_offset + size_bytes / 4
    if base.push_constant_data.length < values_end_offset then .panic
    else
      let data_slice := (base.push_constant_data.drop values_offset).take
        (values_end_offset - values_offset)
      match s.binder.pipeline_layout_id with
      | none => .fail ⟨.SetPushConstant, .Dispatch .MissingPipeline⟩ s
      | some layout_id =>
        if env.validate_push_constant_ranges layout_id offset
            (offset + size_bytes) = false then
          .fail ⟨.SetPushConstant, .PushConstants⟩ s
        else
          .ok { s with trace := s.trace ++
            [HalCall.set_push_constants offset data_slice] }
  | .Dispatch groups =>
    let scope := PassErrorScope.Dispatch false s.pipeline
    let s1 := { s with
      pending_discard_init_fixups := [],
      trace := s.trace ++
        [HalCall.fixup_discarded_surfaces s.pending_discard_init_fixups] }
    match is_ready s1 with
    | some e => .fail ⟨scope, .Dispatch e⟩ s1
    | none =>
      if env.flush_conflict s1.binder.active_groups = true then
        .fail ⟨scope, .ResourceUsageConflict⟩ s1
      else
        let s2 := { s1 with trace := s1.trace ++ [HalCall.barrier_flush] }
        let limit := env.max_compute_workgroups_per_dimension
        if limit < groups.1 ∨ limit < groups.2.1 ∨ limit < groups.2.2 then
          .fail ⟨scope, .Dispatch (.InvalidGroupSize groups limit)⟩ s2
        else .ok { s2 with trace := s2.trace ++ [HalCall.dispatch groups] }
  | .DispatchIndirect buffer_id offset =>
    let scope := PassErrorScope.Dispatch true s.pipeline
    match is_ready s with
    | some e => .fail ⟨scope, .Dispatch e⟩ s
    | none =>
      if env.indirect_execution = false then
        .fail ⟨scope, .MissingDownlevelFlags⟩ s
      else
        match env.lookup_buffer buffer_id with
        | none => .fail ⟨scope, .InvalidIndirectBuffer buffer_id⟩ s
        | some indirect_buffer =>
          if indirect_buffer.usage_indirect = false then
            .fail ⟨scope, .MissingBufferUsage⟩ s
          else if indirect_buffer.size < offset + 12 then
            .fail ⟨scope, .IndirectBufferOverrun offset (offset + 12)
              indirect_buffer.size⟩ s
          else if indirect_buffer.raw = false then
            .fail ⟨scope, .InvalidIndirectBuffer buffer_id⟩ s
          else
            let s1 := { s with
                        buffer_memory_init_actions :=
                          s.buffer_memory_init_actions ++
                            create_action buffer_id offset (offset + 12)
                              .needsInitMemory }
            if env.flush_conflict s1.binder.active_groups = true then
              .fail ⟨scope, .ResourceUsageConflict⟩ s1
            else
              .ok { s1 with
                    trace := s1.trace ++
                      [HalCall.barrier_flush,
                       HalCall.dispatch_indirect buffer_id offset] }
  | .PushDebugGroup _ len =>
    if base.string_data.length < s.string_offset + len then .panic
    else
      let label := (base.string_data.drop s.string_offset).take len
      .ok { s with
            debug_scope_depth := s.debug_scope_depth + 1,
            string_offset := s.string_offset + len,
            trace := s.trace ++ [HalCall.begin_debug_marker label] }
  | .PopDebugGroup =>
    if s.debug_scope_depth = 0 then
      .fail ⟨.PopDebugGroup, .InvalidPopDebugGroup⟩ s
    else
      .ok { s with
            debug_scope_depth := s.debug_scope_depth - 1,
            trace := s.trace ++ [HalCall.end_debug_marker] }
  | .InsertDebugMarker _ len =>
    if base.string_data.length < s.string_offset + len then .panic
    else
      let label := (base.string_data.drop s.string_offset).take len
      .ok { s with
            string_offset := s.string_offset + len,
            trace := s.trace ++ [HalCall.insert_debug_marker_call label] }
  | .WriteTimestamp query_set_id query_index =>
    if env.lookup_query_set query_set_id = false then
      .fail ⟨.WriteTimestamp, .InvalidQuerySet query_set_id⟩ s
    else if env.write_timestamp_ok query_set_id query_index = false then
      .fail ⟨.WriteTimestamp, .QueryUse⟩ s
    else
      .ok { s with
            trace := s.trace ++
              [HalCall.write_timestamp query_set_id query_index] }
  | .BeginPipelineStatisticsQuery query_set_id query_index =>
    if env.lookup_query_set query_set_id = false then
      .fail ⟨.BeginPipelineStatisticsQuery, .InvalidQuerySet query_set_id⟩ s
    else if s.active_query ≠ none then
      .fail ⟨.BeginPipelineStatisticsQuery, .QueryUse⟩ s
    else if env.begin_stat_query_ok query_set_id query_index = false then
      .fail ⟨.BeginPipelineStatisticsQuery, .QueryUse⟩ s
    else
      .ok { s with
            active_query := some query_set_id,
            trace := s.trace ++
              [HalCall.begin_pipeline_statistics_query query_set_id
                query_index] }
  | .EndPipelineStatisticsQuery =>
    match s.active_query with
    | none => .fail ⟨.EndPipelineStatisticsQuery, .QueryUse⟩ s
    | some _ =>
      .ok { s with
            active_query := none,
            trace := s.trace ++ [HalCall.end_pipeline_statistics_query] }

/-- The replay loop: execute the opcodes in order, stopping at the
first error or abort. -/
def exec_stream (env : ComputeEnv) (base : BasePass) :
    PassState → List ComputeCommand → StepRes
  | s, [] => .ok s
  | s, c :: rest =>
    match exec_command env base s c with
    | .ok s2 => exec_stream env base s2 rest
    | .fail e sf => .fail e sf
    | .panic => .panic

/-- The state the executor starts from, after the command buffer's
status has been optimistically set to `Error` and the native pass has
been begun (`compute.rs:301`, `compute.rs:321-338`). -/
def init_pass_state : PassState :=
  { status := .Error,
    binder :=
      { pipeline_layout_id := none, invalid_mask := 0,
        active_groups := [] },
    pipeline := none, debug_scope_depth := 0,
    pending_discard_init_fixups := [], dynamic_offset_count := 0,
    string_offset := 0, buffer_memory_init_actions := [],
    active_query := none, trace := [HalCall.begin_compute_pass] }

/-- Outcome of a whole `run_compute_pass` call: a process abort, or
completion with a result and the final command-buffer-visible state. -/
inductive RunRes
  | panicked
  | completed (result : Except ComputePassError Unit) (s : PassState)
deriving DecidableEq

/-- Embedding of `command_encoder_run_compute_pass_impl`
(`compute.rs:284-726`): `get_encoder_mut` requires the status to be
`Recording` and fails leaving it untouched; otherwise the status is
set to `Error` before any opcode executes, the stream is replayed, and
on full success the native pass is ended, the status flips back to
`Recording`, and the remaining discard-fixups are drained
unconditionally. -/
def command_encoder_run_compute_pass_impl (env : ComputeEnv)
    (status0 : CommandEncoderStatus) (base : BasePass) : RunRes :=
  if status0 ≠ .Recording then
    .completed (.error ⟨.Pass, .Encoder⟩)
      { init_pass_state with status := status0, trace := [] }
  else
    match exec_stream env base init_pass_state base.commands with
    | .panic => .panicked
    | .fail e sf => .completed (.error e) sf
    | .ok s =>
      let s2 := { s with
                  trace := s.trace ++ [HalCall.end_compute_pass],
                  status := .Recording }
      let s3 := { s2 with
        trace := s2.trace ++
          [HalCall.fixup_discarded_surfaces s2.pending_discard_init_fixups],
        pending_discard_init_fixups := [] }
      .completed (.ok ()) s3

/-- The trajectory of executor states: the state before each opcode
and, when the whole stream succeeds, the state after the last one. -/
def states_after (env : ComputeEnv) (base : BasePass) :
    PassState → List ComputeCommand → List PassState
  | s, [] => [s]
  | s, c :: rest =>
    s :: (match exec_command env base s c with
      | .ok s2 => states_after env base s2 rest
      | _ => [])

/-- A sample environment for concrete compute-pass witnesses: bind
group 7 registers one discard-fixup (token 42), pipeline 5 resolves to
layout 50, buffer 3 is a valid 64-byte indirect buffer, and the binder
oracles assign groups without follow-up rebinds. -/
def env0 : ComputeEnv :=
  { max_bind_groups := 8,
    max_compute_workgroups_per_dimension := 65535,
    indirect_execution := true,
    lookup_bind_group := fun _ => true,
    validate_dynamic_bindings := fun _ _ => true,
    group_buffer_init_actions := fun _ => [],
    group_texture_fixups := fun g => if g = 7 then [42] else [],
    assign_group := fun b _ g _ =>
      ({ b with active_groups := b.active_groups ++ [g] }, []),
    lookup_pipeline := fun p => if p = 5 then some 50 else none,
    change_pipeline_layout := fun b _ => (b, 0, []),
    layout_push_constant_ranges := fun _ => [],
    validate_push_constant_ranges := fun _ _ _ => true,
    lookup_buffer := fun b =>
      if b = 3 then
        some { size := 64, usage_copy_dst := true, usage_indirect := true,
               raw := true }
      else none,
    flush_conflict := fun _ => false,
    lookup_query_set := fun _ => false,
    write_timestamp_ok := fun _ _ => false,
    begin_stat_query_ok := fun _ _ => false }

/-- A recorded pass that registers a discard-fixup, sets a pipeline
and then dispatches indirectly; used to exhibit the missing drain on
`DispatchIndirect`. -/
def baseC8 : BasePass :=
  { commands := [.SetBindGroup 0 0 7, .SetPipeline 5, .DispatchIndirect 3 0],
    dynamic_offsets := [], push_constant_data := [], string_data := [] }

/-- The state `baseC8` replays to: the indirect dispatch has been
emitted while fixup 42 is still pending. -/
def sC8 : PassState :=
  { status := .Error,
    binder :=
      { pipeline_layout_id := some 50, invalid_mask := 0,
        active_groups := [7] },
    pipeline := some 5, debug_scope_depth := 0,
    pending_discard_init_fixups := [42], dynamic_offset_count := 0,
    string_offset := 0,
    buffer_memory_init_actions :=
      [{ id := 3, start := 0, stop := 12, kind := .needsInitMemory }],
    active_query := none,
    trace := [HalCall.begin_compute_pass, HalCall.set_compute_pipeline 5,
      HalCall.barrier_flush, HalCall.dispatch_indirect 3 0] }

/-- An empty recorded pass, used by the C1 witness. -/
def baseC1 : BasePass :=
  { commands := [], dynamic_offsets := [], push_constant_data := [],
    string_data := [] }

/-- The final state of replaying `baseC1`: status restored to
`Recording`, pass ended, empty fixup list drained. -/
def sC1 : PassState :=
  { init_pass_state with
    status := .Recording,
    trace := [HalCall.begin_compute_pass, HalCall.end_compute_pass,
      HalCall.fixup_discarded_surfaces []] }

/-- A state with a pipeline bound and one pending discard-fixup, used
by the C8 witness. -/
def sC8b : PassState :=
  { init_pass_state with
    pipeline := some 5, pending_discard_init_fixups := [42] }

/-- The state after a direct `Dispatch` from `sC8b`: the fixup was
drained before the dispatch. -/
def sC8b2 : PassState :=
  { init_pass_state with
    pipeline := some 5,
    trace := [HalCall.begin_compute_pass,
      HalCall.fixup_discarded_surfaces [42], HalCall.barrier_flush,
      HalCall.dispatch (1, 1, 1)] }

/-- A recorded pass consisting of a single direct dispatch, used by
the C9 witness. -/
def baseC9 : BasePass :=
  { commands := [.Dispatch (1, 1, 1)], dynamic_offsets := [],
    push_constant_data := [], string_data := [] }

/-- The state carried by the missing-pipeline failure of `baseC9`. -/
def sC9f : PassState :=
  { init_pass_state with
    trace := [HalCall.begin_compute_pass,
      HalCall.fixup_discarded_surfaces []] }

/-- A state with pipeline 5 bound and no bind groups, used by the C9
witness. -/
def sC9s : PassState :=
  { init_pass_state with pipeline := some 5 }

/-- The state after a successful direct `Dispatch` from `sC9s`. -/
def sC9ok : PassState :=
  { init_pass_state with
    pipeline := some 5,
    trace := [HalCall.begin_compute_pass,
      HalCall.fixup_discarded_surfaces [], HalCall.barrier_flush,
      HalCall.dispatch (1, 1, 1)] }

/-! ## Theorems -/

/-- Claim C2 counterexample: at a concrete input whose computed clear
range is empty (`offset == end` after defaulting the size to the end
of the buffer), `command_encoder_clear_buffer` returns `Ok`, emits no
native call and records no init action, but it HAS requested a
copy-dst usage transition on the destination buffer's tracker, because
`use_replace` runs before the empty-range check; this refutes the
claim's "requests no usage transition" part. -/
theorem clear_buffer_noop_requests_transition_cex :
    (command_encoder_clear_buffer bufs0 cb0 1 16 none).1 = .ok () ∧
    (command_encoder_clear_buffer bufs0 cb0 1 16 none).2.calls = [] ∧
    (command_encoder_clear_buffer bufs0 cb0 1 16 none).2.init_actions = [] ∧
    (command_encoder_clear_buffer bufs0 cb0 1 16 none).2.requests =
      [(1, BufferUses.COPY_DST)] ∧
    (command_encoder_clear_buffer bufs0 cb0 1 16 none).2.requests ≠ [] := by
  decide

/-- Claim C2 (amended): when the clear range computed after defaulting
the size to "to end of buffer" is empty, `command_encoder_clear_buffer`
returns `Ok`, emits no native call and records no memory-init action;
the copy-dst usage-transition request on the destination buffer's
tracker, however, has already been made before the emptiness check. -/
theorem clear_buffer_empty_range_noop (buffers : List (Nat × BufferRecord))
    (cb : CmdBufClear) (dst offset : Nat) (size : Option Nat)
    (b : BufferRecord) (pending : Option (Nat × Nat)) (tr1 : List (Nat × Nat))
    (hv : cb.valid = true) (hc : cb.support_clear_buffer_texture = true)
    (hrep : use_replace cb.buffer_tracker buffers dst BufferUses.COPY_DST =
      some (b, pending, tr1))
    (hraw : b.raw = true) (hq : b.usage_copy_dst = true)
    (hoff : offset % COPY_BUFFER_ALIGNMENT = 0)
    (hsz : ∀ s, size = some s →
      s % COPY_BUFFER_ALIGNMENT = 0 ∧ offset + s ≤ b.size)
    (hstop : offset = (match size with
      | some s => offset + s
      | none => b.size)) :
    (command_encoder_clear_buffer buffers cb dst offset size).1 = .ok () ∧
    (command_encoder_clear_buffer buffers cb dst offset size).2.calls = [] ∧
    (command_encoder_clear_buffer buffers cb dst offset size).2.init_actions = [] ∧
    (command_encoder_clear_buffer buffers cb dst offset size).2.requests =
      [(dst, BufferUses.COPY_DST)] := by
  cases size with
  | none =>
    have h2 : offset = b.size := hstop
    subst h2
    simp only [command_encoder_clear_buffer, hv, hc, hrep, hraw, hq]
    simp [hoff]
  | some s =>
    obtain ⟨hs4, hsb⟩ := hsz s rfl
    have h2 : offset = offset + s := hstop
    have hs0 : s = 0 := by omega
    subst hs0
    have hns : ¬ (b.size < offset) := by omega
    simp only [command_encoder_clear_buffer, hv, hc, hrep, hraw, hq, hoff]
    simp [hs4, hns]

/-- Claim C2 amended-theorem witness at a concrete input. -/
theorem clear_buffer_empty_range_noop_witness :
    (command_encoder_clear_buffer bufs0 cb0 1 16 none).1 = .ok () ∧
    (command_encoder_clear_buffer bufs0 cb0 1 16 none).2.calls = [] := by
  have h := clear_buffer_empty_range_noop bufs0 cb0 1 16 none b0 none
    [(1, BufferUses.COPY_DST)] rfl rfl (by decide) rfl rfl (by decide)
    (by intro s hs; cases hs) (by decide)
  exact ⟨h.1, h.2.1⟩

/-- Claim C3: for an aligned, in-bounds, explicitly sized clear on a
valid copy-dst buffer with the clear-commands capability enabled,
`command_encoder_clear_buffer` succeeds, records one
implicitly-initialized memory-init action for exactly
`[offset, offset+size)`, and emits exactly one native zero-fill call
on that range (preceded only by the buffer barrier). -/
theorem clear_buffer_aligned_in_bounds_success
    (buffers : List (Nat × BufferRecord)) (cb : CmdBufClear)
    (dst offset s : Nat) (b : BufferRecord)
    (pending : Option (Nat × Nat)) (tr1 : List (Nat × Nat))
    (hv : cb.valid = true) (hc : cb.support_clear_buffer_texture = true)
    (hrep : use_replace cb.buffer_tracker buffers dst BufferUses.COPY_DST =
      some (b, pending, tr1))
    (hraw : b.raw = true) (hq : b.usage_copy_dst = true)
    (hoff : offset % COPY_BUFFER_ALIGNMENT = 0)
    (hs4 : s % COPY_BUFFER_ALIGNMENT = 0) (hpos : 0 < s)
    (hsb : offset + s ≤ b.size) :
    (command_encoder_clear_buffer buffers cb dst offset (some s)).1 = .ok () ∧
    (command_encoder_clear_buffer buffers cb dst offset (some s)).2.init_actions =
      [{ id := dst, start := offset, stop := offset + s,
         kind := .implicitlyInit }] ∧
    (command_encoder_clear_buffer buffers cb dst offset (some s)).2.calls =
      [HalCall.transition_buffers (pending.map (fun p => (dst, p.1, p.2))),
       HalCall.clear_buffer dst offset (offset + s)] ∧
    ((command_encoder_clear_buffer buffers cb dst offset (some s)).2.calls.filter
      is_zero_fill) = [HalCall.clear_buffer dst offset (offset + s)] := by
  have hns : ¬ (offset + s > b.size) := not_lt.mpr hsb
  have hne : offset ≠ offset + s := by omega
  simp only [command_encoder_clear_buffer, hv, hc, hrep, hraw, hq, hoff]
  simp [hs4, hns, hne, create_action, is_zero_fill]

/-- Claim C3 witness at a concrete input. -/
theorem clear_buffer_aligned_in_bounds_success_witness :
    (command_encoder_clear_buffer bufs0 cb0 1 4 (some 8)).1 = .ok () ∧
    (command_encoder_clear_buffer bufs0 cb0 1 4 (some 8)).2.init_actions =
      [{ id := 1, start := 4, stop := 12, kind := .implicitlyInit }] := by
  have h := clear_buffer_aligned_in_bounds_success bufs0 cb0 1 4 8 b0 none
    [(1, BufferUses.COPY_DST)] rfl rfl (by decide) rfl rfl (by decide)
    (by decide) (by decide) (by decide)
  exact ⟨h.1, h.2.1⟩

/-- Claim C4: with all earlier validation passing (valid encoder,
capability enabled, resolvable destination carrying copy-dst usage), a
misaligned offset yields `UnalignedBufferOffset` and, when the offset
is aligned, a misaligned explicit size yields `UnalignedFillSize`; in
both cases no native call is emitted. -/
theorem clear_buffer_alignment_errors (buffers : List (Nat × BufferRecord))
    (cb : CmdBufClear) (dst offset : Nat) (size : Option Nat)
    (b : BufferRecord) (pending : Option (Nat × Nat)) (tr1 : List (Nat × Nat))
    (hv : cb.valid = true) (hc : cb.support_clear_buffer_texture = true)
    (hrep : use_replace cb.buffer_tracker buffers dst BufferUses.COPY_DST =
      some (b, pending, tr1))
    (hraw : b.raw = true) (hq : b.usage_copy_dst = true) :
    (offset % COPY_BUFFER_ALIGNMENT ≠ 0 →
      (command_encoder_clear_buffer buffers cb dst offset size).1 =
        .error (.UnalignedBufferOffset offset) ∧
      (command_encoder_clear_buffer buffers cb dst offset size).2.calls = []) ∧
    (∀ s, offset % COPY_BUFFER_ALIGNMENT = 0 → size = some s →
      s % COPY_BUFFER_ALIGNMENT ≠ 0 →
      (command_encoder_clear_buffer buffers cb dst offset size).1 =
        .error (.UnalignedFillSize s) ∧
      (command_encoder_clear_buffer buffers cb dst offset size).2.calls = []) := by
  constructor
  · intro hoff
    simp only [command_encoder_clear_buffer, hv, hc, hrep, hraw, hq]
    simp [hoff]
  · intro s hoff hsz hs4
    subst hsz
    simp only [command_encoder_clear_buffer, hv, hc, hrep, hraw, hq, hoff]
    simp [hs4]

/-- Claim C4 witness at concrete inputs (both error cases). -/
theorem clear_buffer_alignment_errors_witness :
    ((command_encoder_clear_buffer bufs0 cb0 1 3 none).1 =
      .error (.UnalignedBufferOffset 3) ∧
     (command_encoder_clear_buffer bufs0 cb0 1 3 none).2.calls = []) ∧
    ((command_encoder_clear_buffer bufs0 cb0 1 4 (some 5)).1 =
      .error (.UnalignedFillSize 5) ∧
     (command_encoder_clear_buffer bufs0 cb0 1 4 (some 5)).2.calls = []) := by
  have h1 := clear_buffer_alignment_errors bufs0 cb0 1 3 none b0 none
    [(1, BufferUses.COPY_DST)] rfl rfl (by decide) rfl rfl
  have h2 := clear_buffer_alignment_errors bufs0 cb0 1 4 (some 5) b0 none
    [(1, BufferUses.COPY_DST)] rfl rfl (by decide) rfl rfl
  exact ⟨h1.1 (by decide), h2.2 5 (by decide) rfl (by decide)⟩

/-- Claim C10: when no explicit size is given,
`command_encoder_clear_buffer` performs no bounds check on the offset:
for an aligned offset strictly beyond the buffer's size (with all
earlier validation passing) it returns `Ok` and emits the native
zero-fill call over the inverted range `offset..buffer.size`; and with
`size = none` the result is never `BufferOverrun`, whatever the
input. -/
theorem clear_buffer_no_bounds_check_without_size
    (buffers : List (Nat × BufferRecord)) (cb : CmdBufClear)
    (dst offset : Nat) :
    (∀ (b : BufferRecord) (pending : Option (Nat × Nat))
       (tr1 : List (Nat × Nat)),
      cb.valid = true → cb.support_clear_buffer_texture = true →
      use_replace cb.buffer_tracker buffers dst BufferUses.COPY_DST =
        some (b, pending, tr1) →
      b.raw = true → b.usage_copy_dst = true →
      offset % COPY_BUFFER_ALIGNMENT = 0 → b.size < offset →
      (command_encoder_clear_buffer buffers cb dst offset none).1 = .ok () ∧
      (command_encoder_clear_buffer buffers cb dst offset none).2.calls =
        [HalCall.transition_buffers (pending.map (fun p => (dst, p.1, p.2))),
         HalCall.clear_buffer dst offset b.size]) ∧
    (∀ e, (command_encoder_clear_buffer buffers cb dst offset none).1 =
        .error e →
      ∀ x y z, e ≠ .BufferOverrun x y z) := by
  constructor
  · intro b pending tr1 hv hc hrep hraw hq hoff hover
    have hne : offset ≠ b.size := by omega
    simp only [command_encoder_clear_buffer, hv, hc, hrep, hraw, hq, hoff]
    simp [hne]
  · intro e he x y z
    intro hcontra
    subst hcontra
    simp only [command_encoder_clear_buffer] at he
    repeat (first
      | (split at he <;> try simp_all)
      | simp_all)

/-- Claim C10 witness at a concrete input: offset 24 on a buffer of
size 16 with no explicit size succeeds and zero-fills `24..16`. -/
theorem clear_buffer_no_bounds_check_without_size_witness :
    (command_encoder_clear_buffer bufs0 cb0 1 24 none).1 = .ok () ∧
    (command_encoder_clear_buffer bufs0 cb0 1 24 none).2.calls =
      [HalCall.transition_buffers none, HalCall.clear_buffer 1 24 16] := by
  have h := (clear_buffer_no_bounds_check_without_size bufs0 cb0 1 24).1
    b0 none [(1, BufferUses.COPY_DST)] rfl rfl (by decide) rfl rfl
    (by decide) (by decide)
  exact ⟨h.1, h.2⟩

/-- Claim C5: once the aspect check has passed, any texture whose
format has the depth/stencil sample type is rejected with
`DepthStencilFormatNotSupported`, and any multisampled texture (of a
non-depth format, since the format check runs first) is rejected with
`MultisampledTextureUnsupported`, before the subresource ranges are
even looked at: no range hypothesis is needed and no native call is
emitted. -/
theorem clear_texture_depth_and_multisample_rejected
    (textures : List (Nat × TextureRecord)) (cb : CmdBufClear) (dst : Nat)
    (sr : ImageSubresourceRange) (pitch zbs : Nat) (t : TextureRecord)
    (hv : cb.valid = true) (hc : cb.support_clear_buffer_texture = true)
    (hlook : textures.lookup dst = some t)
    (hasp : (FormatAspects.inter t.desc.format.aspects
      (FormatAspects.from_aspect sr.aspect)).is_empty = false) :
    (t.desc.format.sample_type_depth = true →
      command_encoder_clear_texture textures cb dst sr pitch zbs =
        .completed (.error .DepthStencilFormatNotSupported) []) ∧
    (t.desc.format.sample_type_depth = false → 1 < t.desc.sample_count →
      command_encoder_clear_texture textures cb dst sr pitch zbs =
        .completed (.error .MultisampledTextureUnsupported) []) := by
  constructor
  · intro hd
    simp only [command_encoder_clear_texture, hv, hc, hlook, hasp, hd]
    simp
  · intro hd hs
    simp only [command_encoder_clear_texture, hv, hc, hlook, hasp, hd]
    simp [hs]

/-- Claim C5 witness: a depth-format texture and a multisampled
texture, both with otherwise-valid full ranges, are rejected. -/
theorem clear_texture_depth_and_multisample_rejected_witness :
    command_encoder_clear_texture texs0 cb0 1 sr0 4 65536 =
      .completed (.error .DepthStencilFormatNotSupported) [] ∧
    command_encoder_clear_texture texs0 cb0 2 sr0 4 65536 =
      .completed (.error .MultisampledTextureUnsupported) [] := by
  have h1 := clear_texture_depth_and_multisample_rejected texs0 cb0 1 sr0
    4 65536 texDepth rfl rfl (by decide) (by decide)
  have h2 := clear_texture_depth_and_multisample_rejected texs0 cb0 2 sr0
    4 65536 texMS rfl rfl (by decide) (by decide)
  exact ⟨h1.1 rfl, h2.2 rfl (by decide)⟩

theorem row_chunks_go_fuel_irrel (total m : Nat) :
    ∀ fuel fuel2 left, left ≤ fuel → left ≤ fuel2 →
      row_chunks_go total m fuel left = row_chunks_go total m fuel2 left := by
  intro fuel
  induction fuel with
  | zero =>
    intro fuel2 left h1 h2
    have hl : left = 0 := by omega
    subst hl
    cases fuel2 <;> simp [row_chunks_go]
  | succ k ih =>
    intro fuel2 left h1 h2
    cases fuel2 with
    | zero =>
      have hl : left = 0 := by omega
      subst hl
      simp [row_chunks_go]
    | succ k2 =>
      by_cases hl : left = 0
      · subst hl; simp [row_chunks_go]
      · by_cases hm : m = 0
        · simp [row_chunks_go, hl, hm]
        · simp only [row_chunks_go, hl, hm, if_false]
          congr 1
          exact ih k2 (left - min left m) (by omega) (by omega)

theorem row_chunks_eq (total m left : Nat) :
    row_chunks total m left =
      if left = 0 then []
      else if m = 0 then []
      else (total - left, min left m) ::
        row_chunks total m (left - min left m) := by
  unfold row_chunks
  cases left with
  | zero => simp [row_chunks_go]
  | succ k =>
    by_cases hm : m = 0
    · simp [row_chunks_go, hm]
    · simp only [row_chunks_go, hm, if_false, Nat.succ_ne_zero]
      congr 1
      exact row_chunks_go_fuel_irrel total m k (k + 1 - min (k + 1) m)
        (k + 1 - min (k + 1) m) (by omega) (by omega)

theorem row_chunks_sum (total maxRows : Nat) (hm : maxRows ≠ 0) :
    ∀ left, ((row_chunks total maxRows left).map Prod.snd).sum = left := by
  intro left
  induction left using Nat.strong_induction_on with
  | _ left ih =>
    rw [row_chunks_eq]
    by_cases h1 : left = 0
    · simp [h1]
    · simp only [h1, hm, if_false]
      have hrec := ih (left - min left maxRows) (by omega)
      simp only [List.map_cons, List.sum_cons, hrec]
      omega

theorem row_chunks_mem (total maxRows : Nat) :
    ∀ left, ∀ c ∈ row_chunks total maxRows left, 0 < c.2 ∧ c.2 ≤ maxRows := by
  intro left
  induction left using Nat.strong_induction_on with
  | _ left ih =>
    rw [row_chunks_eq]
    by_cases h1 : left = 0
    · simp [h1]
    · by_cases h2 : maxRows = 0
      · simp [h1, h2]
      · simp only [h1, h2, if_false]
        intro c hc
        rcases List.mem_cons.mp hc with hc | hc
        · subst hc; exact ⟨by simp; omega, by simp⟩
        · exact ih (left - min left maxRows) (by omega) c hc

theorem chunkShape_get (L : List (Nat × Nat)) (y : Nat) (h : ChunkShape y L) :
    ∀ i : Fin L.length, (L.get i).1 = y + ((L.take i.1).map Prod.snd).sum := by
  induction h with
  | nil y => intro i; exact absurd i.2 (by simp)
  | cons y n rest hrest ih =>
    intro i
    rcases i with ⟨iv, hi⟩
    match iv with
    | 0 => simp
    | j + 1 =>
      have hj : j < rest.length := by simpa using hi
      have := ih ⟨j, hj⟩
      simp only [List.get_cons_succ, List.take_succ_cons, List.map_cons,
        List.sum_cons]
      simp only [List.get] at this ⊢
      rw [this]
      omega

theorem row_chunks_shape (total maxRows : Nat) :
    ∀ left, left ≤ total →
      ChunkShape (total - left) (row_chunks total maxRows left) := by
  intro left
  induction left using Nat.strong_induction_on with
  | _ left ih =>
    intro hle
    rw [row_chunks_eq]
    by_cases h1 : left = 0
    · simp only [h1, if_true]; exact .nil _
    · by_cases h2 : maxRows = 0
      · simp only [h1, h2, if_false, if_true]; exact .nil _
      · simp only [h1, h2, if_false]
        have hrec := ih (left - min left maxRows) (by omega) (by omega)
        rw [show total - (left - min left maxRows) =
          total - left + min left maxRows from by omega] at hrec
        exact .cons _ _ _ hrec

theorem collect_mip_ok_characterization (desc : TextureDescriptor)
    (pitch zbs : Nat) (layerR : Nat × Nat) (mip : Nat)
    (rs : List BufferTextureCopy)
    (h : collect_mip desc pitch zbs layerR mip = .ok rs) :
    mip < desc.mip_level_count ∧
    max_rows_per_copy desc pitch zbs mip ≠ 0 ∧
    rs = (List.range' layerR.1 (layerR.2 - layerR.1)).flatMap
      (fun layer => (List.range (z_count desc mip)).flatMap
        (fun z => (row_chunks (aligned_height desc mip)
            (max_rows_per_copy desc pitch zbs mip)
            (aligned_height desc mip)).map
          (fun c => region_for desc pitch mip layer z c))) := by
  unfold collect_mip at h
  cases hms : mip_level_size desc mip with
  | none => rw [hms] at h; cases h
  | some ms =>
    rw [hms] at h
    unfold mip_level_size at hms
    split at hms
    · cases hms
    · rename_i hcount
      have hms2 := Option.some.inj hms
      subst hms2
      simp only at h
      split at h
      · cases h
      · rename_i hmrpc
        refine ⟨by omega, ?_, ?_⟩
        · simpa [max_rows_per_copy, bytes_per_row, aligned_width,
            aligned_height] using hmrpc
        · have h2 := Except.ok.inj h
          subst h2
          rcases hdim : desc.dimension <;>
            simp [hdim, max_rows_per_copy, bytes_per_row, aligned_width,
              aligned_height, z_count, region_for]

theorem collect_mip_not_ok_characterization (desc : TextureDescriptor)
    (pitch zbs : Nat) (layerR : Nat × Nat) (mip : Nat)
    (hm : mip < desc.mip_level_count) :
    (collect_mip desc pitch zbs layerR mip = .error .zeroBufferTooSmall ↔
      max_rows_per_copy desc pitch zbs mip = 0) ∧
    collect_mip desc pitch zbs layerR mip ≠ .error .mipLevelOutOfRange := by
  unfold collect_mip
  cases hms : mip_level_size desc mip with
  | none =>
    exfalso
    unfold mip_level_size at hms
    split at hms
    · omega
    · cases hms
  | some ms =>
    unfold mip_level_size at hms
    split at hms
    · cases hms
    · have hms2 := Option.some.inj hms
      subst hms2
      simp only
      constructor
      · constructor
        · intro he
          split at he
          · rename_i hz
            simpa [max_rows_per_copy, bytes_per_row, aligned_width,
              aligned_height] using hz
          · cases he
        · intro hz
          have hz2 : (zbs / align_to (align_to (max 1 (desc.size.width / 2 ^ mip))
              desc.format.block_w / desc.format.block_w * desc.format.block_size)
              (get_lowest_common_denom pitch desc.format.block_size) /
              desc.format.block_h * desc.format.block_h) = 0 := by
            simpa [max_rows_per_copy, bytes_per_row, aligned_width,
              aligned_height] using hz
          simp [hz2]
      · intro he
        split at he
        · cases he
        · cases he

theorem collect_mips_ok_characterization (desc : TextureDescriptor)
    (pitch zbs : Nat) (layerR : Nat × Nat) :
    ∀ (l : List Nat) (regions : List BufferTextureCopy),
      collect_mips desc pitch zbs layerR l = .ok regions →
      regions = l.flatMap (fun mip =>
        (List.range' layerR.1 (layerR.2 - layerR.1)).flatMap
          (fun layer => (List.range (z_count desc mip)).flatMap
            (fun z => (row_chunks (aligned_height desc mip)
                (max_rows_per_copy desc pitch zbs mip)
                (aligned_height desc mip)).map
              (fun c => region_for desc pitch mip layer z c)))) ∧
      ∀ mip ∈ l, mip < desc.mip_level_count ∧
        max_rows_per_copy desc pitch zbs mip ≠ 0 := by
  intro l
  induction l with
  | nil =>
    intro regions h
    unfold collect_mips at h
    have h2 := Except.ok.inj h
    subst h2
    simp
  | cons m rest ih =>
    intro regions h
    unfold collect_mips at h
    cases hm : collect_mip desc pitch zbs layerR m with
    | error e => rw [hm] at h; cases h
    | ok rs =>
      rw [hm] at h
      cases hrest : collect_mips desc pitch zbs layerR rest with
      | error e => rw [hrest] at h; cases h
      | ok rest_rs =>
        rw [hrest] at h
        have h2 := Except.ok.inj h
        subst h2
        obtain ⟨hm1, hm2, hm3⟩ :=
          collect_mip_ok_characterization desc pitch zbs layerR m rs hm
        obtain ⟨hr1, hr2⟩ := ih rest_rs hrest
        constructor
        · rw [List.flatMap_cons, ← hm3, ← hr1]
        · intro mip hmip
          rcases List.mem_cons.mp hmip with hmip | hmip
          · subst hmip; exact ⟨hm1, hm2⟩
          · exact hr2 mip hmip

/-- Claim C6: whenever region synthesis completes without aborting,
the emitted regions are, for each requested mip level, array layer and
depth slice in order, the images of a chunk decomposition of the mip
level's block-aligned height: the chunks are nonempty, hold at most
`max_rows_per_copy` rows each, and are consecutive (each chunk's
`y`-origin is the number of rows consumed before it in that slice);
each region has origin `(0, y, slice)` and extent (full block-aligned
row width, chunk rows, 1). -/
theorem collect_regions_partition (desc : TextureDescriptor)
    (pitch zbs : Nat) (mipR layerR : Nat × Nat)
    (regions : List BufferTextureCopy)
    (h : collect_zero_buffer_copies_for_clear_texture desc pitch zbs
      mipR layerR = .ok regions) :
    ∃ chunks : Nat → List (Nat × Nat),
      regions = (List.range' mipR.1 (mipR.2 - mipR.1)).flatMap (fun mip =>
        (List.range' layerR.1 (layerR.2 - layerR.1)).flatMap
          (fun layer => (List.range (z_count desc mip)).flatMap
            (fun z => (chunks mip).map
              (fun c => region_for desc pitch mip layer z c)))) ∧
      ∀ mip ∈ List.range' mipR.1 (mipR.2 - mipR.1),
        ((chunks mip).map Prod.snd).sum = aligned_height desc mip ∧
        (∀ c ∈ chunks mip, 0 < c.2 ∧
          c.2 ≤ max_rows_per_copy desc pitch zbs mip) ∧
        ∀ i : Fin (chunks mip).length,
          ((chunks mip).get i).1 =
            (((chunks mip).take i.1).map Prod.snd).sum := by
  unfold collect_zero_buffer_copies_for_clear_texture at h
  obtain ⟨hre, hmips⟩ := collect_mips_ok_characterization desc pitch zbs
    layerR (List.range' mipR.1 (mipR.2 - mipR.1)) regions h
  refine ⟨fun mip => row_chunks (aligned_height desc mip)
    (max_rows_per_copy desc pitch zbs mip) (aligned_height desc mip),
    hre, ?_⟩
  intro mip hmip
  obtain ⟨_, hmz⟩ := hmips mip hmip
  refine ⟨row_chunks_sum _ _ hmz _,
    fun c hc => row_chunks_mem _ _ _ c hc, ?_⟩
  intro i
  have hsh := row_chunks_shape (aligned_height desc mip)
    (max_rows_per_copy desc pitch zbs mip) (aligned_height desc mip)
    le_rfl
  rw [Nat.sub_self] at hsh
  have := chunkShape_get _ 0 hsh i
  simpa using this

/-- A small 4x4 color texture used by C6/C7 concrete witnesses. -/
def descW : TextureDescriptor :=
  { format :=
      { sample_type_depth := false, block_size := 4, block_w := 1,
        block_h := 1, aspects := ⟨true, false, false⟩ },
    dimension := .D2, size := ⟨4, 4, 1⟩, mip_level_count := 1,
    sample_count := 1, usage_copy_dst := true }

/-- Claim C6 witness: on the 4x4 texture with a 64-byte scratch buffer
the synthesis emits a single full-height region, and the partition
theorem applies to it. -/
theorem collect_regions_partition_witness :
    ∃ chunks : Nat → List (Nat × Nat),
      [({ bytes_per_row := 16, mip_level := 0, array_layer := 0,
          origin_x := 0, origin_y := 0, origin_z := 0, size_width := 4,
          size_height := 4, size_depth := 1 } : BufferTextureCopy)] =
        (List.range' (0, 1).1 ((0, 1).2 - (0, 1).1)).flatMap (fun mip =>
          (List.range' (0, 1).1 ((0, 1).2 - (0, 1).1)).flatMap
            (fun layer => (List.range (z_count descW mip)).flatMap
              (fun z => (chunks mip).map
                (fun c => region_for descW 4 mip layer z c)))) ∧
      ∀ mip ∈ List.range' (0, 1).1 ((0, 1).2 - (0, 1).1),
        ((chunks mip).map Prod.snd).sum = aligned_height descW mip ∧
        (∀ c ∈ chunks mip, 0 < c.2 ∧
          c.2 ≤ max_rows_per_copy descW 4 64 mip) ∧
        ∀ i : Fin (chunks mip).length,
          ((chunks mip).get i).1 =
            (((chunks mip).take i.1).map Prod.snd).sum :=
  collect_regions_partition descW 4 64 (0, 1) (0, 1) _ (by decide)

theorem align_to_ge (v a : Nat) (ha : 0 < a) : v ≤ align_to v a := by
  unfold align_to
  split
  · exact le_rfl
  · have h1 : v % a < a := Nat.mod_lt v ha
    have h2 : v % a ≤ v := Nat.mod_le v a
    omega

theorem align_to_ge_alignment (v a : Nat) (ha : 0 < a) (hv : 0 < v) :
    a ≤ align_to v a := by
  unfold align_to
  split
  · rename_i h
    exact Nat.le_of_dvd hv (Nat.dvd_of_mod_eq_zero h)
  · have h1 : v % a < a := Nat.mod_lt v ha
    omega

theorem bytes_per_row_pos (desc : TextureDescriptor) (pitch mip : Nat)
    (hbw : 0 < desc.format.block_w) (hbs : 0 < desc.format.block_size)
    (hp : 0 < pitch) : 0 < bytes_per_row desc pitch mip := by
  have hw1 : 0 < max 1 (desc.size.width / 2 ^ mip) := by
    have := Nat.le_max_left 1 (desc.size.width / 2 ^ mip)
    omega
  have hw : desc.format.block_w ≤ aligned_width desc mip :=
    align_to_ge_alignment _ _ hbw hw1
  have hq : 1 ≤ aligned_width desc mip / desc.format.block_w :=
    (Nat.one_le_div_iff hbw).mpr hw
  have hval : 0 < aligned_width desc mip / desc.format.block_w *
      desc.format.block_size := Nat.mul_pos hq hbs
  have hlcm : 0 < get_lowest_common_denom pitch desc.format.block_size := by
    unfold get_lowest_common_denom
    exact Nat.pos_of_ne_zero
      (Nat.lcm_ne_zero (Nat.pos_iff_ne_zero.mp hp) (Nat.pos_iff_ne_zero.mp hbs))
  calc 0 < aligned_width desc mip / desc.format.block_w *
        desc.format.block_size := hval
    _ ≤ bytes_per_row desc pitch mip := align_to_ge _ _ hlcm

theorem max_rows_per_copy_pos_of_fit (desc : TextureDescriptor)
    (pitch zbs mip : Nat) (hbh : 0 < desc.format.block_h)
    (hbpr : 0 < bytes_per_row desc pitch mip)
    (hfit : desc.format.block_h * bytes_per_row desc pitch mip ≤ zbs) :
    max_rows_per_copy desc pitch zbs mip ≠ 0 := by
  unfold max_rows_per_copy
  have h1 : desc.format.block_h ≤ zbs / bytes_per_row desc pitch mip :=
    (Nat.le_div_iff_mul_le hbpr).mpr hfit
  have h2 : 1 ≤ zbs / bytes_per_row desc pitch mip / desc.format.block_h :=
    (Nat.one_le_div_iff hbh).mpr h1
  have := Nat.mul_pos h2 hbh
  omega

theorem collect_mips_abort_characterization (desc : TextureDescriptor)
    (pitch zbs : Nat) (layerR : Nat × Nat) :
    ∀ l : List Nat, (∀ mip ∈ l, mip < desc.mip_level_count) →
      (collect_mips desc pitch zbs layerR l = .error .zeroBufferTooSmall ↔
        ∃ mip ∈ l, max_rows_per_copy desc pitch zbs mip = 0) ∧
      ((∀ mip ∈ l, max_rows_per_copy desc pitch zbs mip ≠ 0) →
        ∃ rs, collect_mips desc pitch zbs layerR l = .ok rs) := by
  intro l
  induction l with
  | nil =>
    intro _
    refine ⟨⟨fun h => ?_, fun h => ?_⟩, fun _ => ⟨[], rfl⟩⟩
    · exact absurd h (by unfold collect_mips; intro h2; cases h2)
    · obtain ⟨mip, hm, _⟩ := h
      cases hm
  | cons m rest ih =>
    intro hlt
    have hmlt := hlt m (List.mem_cons_self m rest)
    obtain ⟨hiff, hok⟩ := ih (fun mip hm => hlt mip (List.mem_cons_of_mem _ hm))
    obtain ⟨hmiff, hmno⟩ :=
      collect_mip_not_ok_characterization desc pitch zbs layerR m hmlt
    constructor
    · constructor
      · intro h
        unfold collect_mips at h
        cases hm : collect_mip desc pitch zbs layerR m with
        | error e =>
          rw [hm] at h
          have he := Except.error.inj h
          subst he
          exact ⟨m, List.mem_cons_self m rest, hmiff.mp hm⟩
        | ok rs =>
          rw [hm] at h
          cases hrest : collect_mips desc pitch zbs layerR rest with
          | error e =>
            rw [hrest] at h
            have he := Except.error.inj h
            subst he
            obtain ⟨mip, hmem, hz⟩ := hiff.mp hrest
            exact ⟨mip, List.mem_cons_of_mem _ hmem, hz⟩
          | ok rr => rw [hrest] at h; cases h
      · rintro ⟨mip, hmem, hz⟩
        unfold collect_mips
        rcases List.mem_cons.mp hmem with hmip | hmip
        · subst hmip
          rw [hmiff.mpr hz]
        · cases hm : collect_mip desc pitch zbs layerR m with
          | error e =>
            cases e with
            | mipLevelOutOfRange => exact absurd hm hmno
            | zeroBufferTooSmall => rfl
          | ok rs =>
            rw [hiff.mpr ⟨mip, hmip, hz⟩]
    · intro hall
      unfold collect_mips
      cases hm : collect_mip desc pitch zbs layerR m with
      | error e =>
        exfalso
        cases e with
        | mipLevelOutOfRange => exact absurd hm hmno
        | zeroBufferTooSmall =>
          exact absurd (hmiff.mp hm) (hall m (List.mem_cons_self m rest))
      | ok rs =>
        obtain ⟨rr, hrr⟩ :=
          hok (fun mip hm2 => hall mip (List.mem_cons_of_mem _ hm2))
        rw [hrr]
        exact ⟨rs ++ rr, rfl⟩

/-- Claim C7: provided every requested mip level exists and the
format's block dimensions, block size and the pitch alignment are
positive, region synthesis hits the fail-fast assertion (aborting with
`zeroBufferTooSmall`, emitting nothing) exactly when the rounded
`max_rows_per_copy` is zero for some requested mip level; conversely,
when one block-height group of rows fits in the scratch buffer for
every requested mip level, the assertion never fires and the synthesis
completes. -/
theorem collect_fail_fast_characterization (desc : TextureDescriptor)
    (pitch zbs : Nat) (mipR layerR : Nat × Nat)
    (hmips : ∀ mip ∈ List.range' mipR.1 (mipR.2 - mipR.1),
      mip < desc.mip_level_count)
    (hbw : 0 < desc.format.block_w) (hbh : 0 < desc.format.block_h)
    (hbs : 0 < desc.format.block_size) (hp : 0 < pitch) :
    (collect_zero_buffer_copies_for_clear_texture desc pitch zbs mipR
        layerR = .error .zeroBufferTooSmall ↔
      ∃ mip ∈ List.range' mipR.1 (mipR.2 - mipR.1),
        max_rows_per_copy desc pitch zbs mip = 0) ∧
    ((∀ mip ∈ List.range' mipR.1 (mipR.2 - mipR.1),
        desc.format.block_h * bytes_per_row desc pitch mip ≤ zbs) →
      ∃ rs, collect_zero_buffer_copies_for_clear_texture desc pitch zbs
        mipR layerR = .ok rs) := by
  obtain ⟨hiff, hok⟩ :=
    collect_mips_abort_characterization desc pitch zbs layerR _ hmips
  unfold collect_zero_buffer_copies_for_clear_texture
  refine ⟨hiff, fun hfit => hok fun mip hm => ?_⟩
  exact max_rows_per_copy_pos_of_fit desc pitch zbs mip hbh
    (bytes_per_row_pos desc pitch mip hbw hbs hp) (hfit mip hm)

/-- Claim C7 witness: on the 4x4 texture a 4-byte scratch buffer
cannot hold one 16-byte row, so synthesis aborts; a 64-byte one can,
so it completes. -/
theorem collect_fail_fast_characterization_witness :
    collect_zero_buffer_copies_for_clear_texture descW 4 4 (0, 1) (0, 1) =
      .error .zeroBufferTooSmall ∧
    ∃ rs, collect_zero_buffer_copies_for_clear_texture descW 4 64 (0, 1)
      (0, 1) = .ok rs := by
  constructor
  · exact (collect_fail_fast_characterization descW 4 4 (0, 1) (0, 1)
      (by decide) (by decide) (by decide) (by decide) (by decide)).1.mpr
      ⟨0, by decide, by decide⟩
  · exact (collect_fail_fast_characterization descW 4 64 (0, 1) (0, 1)
      (by decide) (by decide) (by decide) (by decide) (by decide)).2
      (by decide)

theorem exec_command_status (env : ComputeEnv) (base : BasePass)
    (s : PassState) (c : ComputeCommand) :
    (∀ s', exec_command env base s c = .ok s' → s'.status = s.status) ∧
    (∀ e sf, exec_command env base s c = .fail e sf → sf.status = s.status) := by
  cases c <;>
    refine ⟨fun s' h => ?_, fun e sf h => ?_⟩ <;>
    · simp only [exec_command] at h
      repeat' split at h
      all_goals (try (cases h))
      all_goals rfl

theorem exec_stream_status (env : ComputeEnv) (base : BasePass) :
    ∀ (l : List ComputeCommand) (s : PassState),
      (∀ s', exec_stream env base s l = .ok s' → s'.status = s.status) ∧
      (∀ e sf, exec_stream env base s l = .fail e sf →
        sf.status = s.status) := by
  intro l
  induction l with
  | nil =>
    intro s
    refine ⟨fun s' h => ?_, fun e sf h => ?_⟩
    · cases h; rfl
    · cases h
  | cons c rest ih =>
    intro s
    constructor
    · intro s' h
      simp only [exec_stream] at h
      cases hc : exec_command env base s c with
      | ok s2 =>
        rw [hc] at h
        exact ((ih s2).1 s' h).trans
          ((exec_command_status env base s c).1 s2 hc)
      | fail e2 sf2 => rw [hc] at h; cases h
      | panic => rw [hc] at h; cases h
    · intro e sf h
      simp only [exec_stream] at h
      cases hc : exec_command env base s c with
      | ok s2 =>
        rw [hc] at h
        exact ((ih s2).2 e sf h).trans
          ((exec_command_status env base s c).1 s2 hc)
      | fail e2 sf2 =>
        rw [hc] at h
        injection h with h1 h2
        rw [← h2]
        exact (exec_command_status env base s c).2 e2 sf2 hc
      | panic => rw [hc] at h; cases h

theorem states_after_status (env : ComputeEnv) (base : BasePass) :
    ∀ (l : List ComputeCommand) (s : PassState), s.status = .Error →
      ∀ x ∈ states_after env base s l, x.status = .Error := by
  intro l
  induction l with
  | nil =>
    intro s hs x hx
    simp only [states_after, List.mem_singleton] at hx
    subst hx
    exact hs
  | cons c rest ih =>
    intro s hs x hx
    simp only [states_after, List.mem_cons] at hx
    rcases hx with hx | hx
    · subst hx; exact hs
    · cases hc : exec_command env base s c with
      | ok s2 =>
        rw [hc] at hx
        exact ih s2
          (((exec_command_status env base s c).1 s2 hc).trans hs) x hx
      | fail e2 sf2 => rw [hc] at hx; cases hx
      | panic => rw [hc] at hx; cases hx

/-- Claim C1: with the encoder in the `Recording` state, the run sets
the command buffer's status to `Error` before any opcode executes, and
the status stays `Error` throughout the replay (every state the
executor passes through carries it); if any opcode fails, the returned
error leaves the status `Error`; the status is `Recording` again only
on the successful outcome, in which every opcode was replayed
(`exec_stream` returned `ok`) and the native pass was ended before the
flip, followed only by the unconditional fixup drain. -/
theorem run_compute_pass_status_latch (env : ComputeEnv) (base : BasePass) :
    (∀ x ∈ states_after env base init_pass_state base.commands,
      x.status = .Error) ∧
    (∀ e sf, command_encoder_run_compute_pass_impl env .Recording base =
        .completed (.error e) sf → sf.status = .Error) ∧
    (∀ sfin, command_encoder_run_compute_pass_impl env .Recording base =
        .completed (.ok ()) sfin →
      sfin.status = .Recording ∧
      ∃ s0, exec_stream env base init_pass_state base.commands = .ok s0 ∧
        s0.status = .Error ∧
        sfin.trace = s0.trace ++ [HalCall.end_compute_pass,
          HalCall.fixup_discarded_surfaces
            s0.pending_discard_init_fixups]) := by
  refine ⟨states_after_status env base base.commands init_pass_state rfl,
    ?_, ?_⟩
  · intro e sf h
    simp only [command_encoder_run_compute_pass_impl] at h
    rw [if_neg (by simp)] at h
    cases hx : exec_stream env base init_pass_state base.commands with
    | ok s0 => rw [hx] at h; simp at h
    | fail e2 sf2 =>
      rw [hx] at h
      obtain ⟨h1, h2⟩ := RunRes.completed.inj h
      rw [← h2]
      exact (exec_stream_status env base base.commands init_pass_state).2
        e2 sf2 hx
    | panic => rw [hx] at h; cases h
  · intro sfin h
    simp only [command_encoder_run_compute_pass_impl] at h
    rw [if_neg (by simp)] at h
    cases hx : exec_stream env base init_pass_state base.commands with
    | ok s0 =>
      rw [hx] at h
      obtain ⟨h1, h2⟩ := RunRes.completed.inj h
      subst h2
      refine ⟨rfl, s0, rfl, (exec_stream_status env base base.commands
        init_pass_state).1 s0 hx, ?_⟩
      simp
    | fail e2 sf2 => rw [hx] at h; simp at h
    | panic => rw [hx] at h; cases h

/-- Claim C1 witness: replaying the empty pass on a `Recording`
encoder succeeds and restores the `Recording` status. -/
theorem run_compute_pass_status_latch_witness :
    command_encoder_run_compute_pass_impl env0 .Recording baseC1 =
      .completed (.ok ()) sC1 ∧ sC1.status = .Recording := by
  refine ⟨by decide, ?_⟩
  exact ((run_compute_pass_status_latch env0 baseC1).2.2 sC1 (by decide)).1

/-- Claim C8 counterexample: replaying `[SetBindGroup(slot 0, group 7),
SetPipeline 5, DispatchIndirect(buffer 3)]` under `env0` (where group
7 registers discard-fixup 42) succeeds with the native indirect
dispatch emitted while fixup 42 is still pending and no drain call
anywhere in the trace — the `DispatchIndirect` arm does not drain the
pending discard-fixup list, refuting the claim as stated. -/
theorem dispatch_indirect_no_drain_cex :
    exec_stream env0 baseC8 init_pass_state baseC8.commands = .ok sC8 ∧
    sC8.pending_discard_init_fixups = [42] ∧
    sC8.trace.getLast? = some (HalCall.dispatch_indirect 3 0) ∧
    HalCall.fixup_discarded_surfaces [42] ∉ sC8.trace := by decide

/-- Claim C8 (amended): the pending discard-fixup list is drained
immediately before every direct `Dispatch` opcode (the successful step
leaves the list empty and its trace shows the drain, then the barrier
flush, then the dispatch); the `DispatchIndirect` arm performs no such
drain; and whatever remains is drained unconditionally at pass end,
whose final trace always ends with a drain call and whose final
pending list is empty. -/
theorem discard_fixup_drain_points (env : ComputeEnv) (base : BasePass) :
    (∀ s groups s', exec_command env base s (.Dispatch groups) = .ok s' →
      s'.pending_discard_init_fixups = [] ∧
      s'.trace = s.trace ++
        [HalCall.fixup_discarded_surfaces s.pending_discard_init_fixups,
         HalCall.barrier_flush, HalCall.dispatch groups]) ∧
    (∀ sfin, command_encoder_run_compute_pass_impl env .Recording base =
        .completed (.ok ()) sfin →
      sfin.pending_discard_init_fixups = [] ∧
      ∃ pre fix, sfin.trace =
        pre ++ [HalCall.fixup_discarded_surfaces fix]) := by
  constructor
  · intro s groups s' h
    simp only [exec_command] at h
    repeat' split at h
    all_goals (try (cases h))
    all_goals exact ⟨rfl, by simp⟩
  · intro sfin h
    simp only [command_encoder_run_compute_pass_impl] at h
    rw [if_neg (by simp)] at h
    cases hx : exec_stream env base init_pass_state base.commands with
    | ok s0 =>
      rw [hx] at h
      obtain ⟨h1, h2⟩ := RunRes.completed.inj h
      subst h2
      exact ⟨rfl, _, _, rfl⟩
    | fail e2 sf2 => rw [hx] at h; simp at h
    | panic => rw [hx] at h; cases h

/-- Claim C8 amended-theorem witness: a direct dispatch from a state
with pending fixup 42 drains it first. -/
theorem discard_fixup_drain_points_witness :
    exec_command env0 baseC8 sC8b (.Dispatch (1, 1, 1)) = .ok sC8b2 ∧
    sC8b2.pending_discard_init_fixups = [] := by
  refine ⟨by decide, ?_⟩
  exact ((discard_fixup_drain_points env0 baseC8).1 sC8b (1, 1, 1) sC8b2
    (by decide)).1

theorem exec_command_pipeline (env : ComputeEnv) (base : BasePass)
    (s : PassState) (c : ComputeCommand)
    (hc : ∀ p, c ≠ ComputeCommand.SetPipeline p) :
    ∀ s', exec_command env base s c = .ok s' → s'.pipeline = s.pipeline := by
  cases c <;>
    first
      | exact fun s' h => absurd rfl (hc _)
      | (intro s' h
         simp only [exec_command] at h
         repeat' split at h
         all_goals (try (cases h))
         all_goals rfl)

theorem exec_stream_pipeline (env : ComputeEnv) (base : BasePass) :
    ∀ (l : List ComputeCommand) (s s' : PassState),
      (∀ c ∈ l, ∀ p, c ≠ ComputeCommand.SetPipeline p) →
      exec_stream env base s l = .ok s' → s'.pipeline = s.pipeline := by
  intro l
  induction l with
  | nil => intro s s' _ h; cases h; rfl
  | cons c rest ih =>
    intro s s' hnp h
    simp only [exec_stream] at h
    cases hc : exec_command env base s c with
    | ok s2 =>
      rw [hc] at h
      exact (ih s2 s' (fun d hd => hnp d (List.mem_cons_of_mem _ hd)) h).trans
        (exec_command_pipeline env base s c
          (hnp c (List.mem_cons_self c rest)) s2 hc)
    | fail e2 sf2 => rw [hc] at h; cases h
    | panic => rw [hc] at h; cases h

theorem exec_stream_append_ok (env : ComputeEnv) (base : BasePass) :
    ∀ (l1 l2 : List ComputeCommand) (s s2 : PassState),
      exec_stream env base s l1 = .ok s2 →
      exec_stream env base s (l1 ++ l2) = exec_stream env base s2 l2 := by
  intro l1
  induction l1 with
  | nil => intro l2 s s2 h; cases h; rfl
  | cons c rest ih =>
    intro l2 s s2 h
    simp only [exec_stream] at h
    rw [List.cons_append]
    simp only [exec_stream]
    cases hc : exec_command env base s c with
    | ok s3 =>
      rw [hc] at h
      simp only [hc]
      exact ih l2 s3 s2 h
    | fail e2 sf2 => rw [hc] at h; cases h
    | panic => rw [hc] at h; cases h

/-- Claim C9: a `Dispatch` replayed before any `SetPipeline` (with no
invalid bind-group slot at that point) fails with the missing-pipeline
dispatch error at that opcode, aborting the rest of the stream; and a
`Dispatch` from a state with a pipeline set, no invalid slot, no merge
conflict and all three workgroup counts within the per-dimension limit
succeeds, emitting the barrier flush and the native dispatch. -/
theorem dispatch_requires_pipeline (env : ComputeEnv) (base : BasePass) :
    (∀ pre g rest s,
      (∀ c ∈ pre, ∀ p, c ≠ ComputeCommand.SetPipeline p) →
      exec_stream env base init_pass_state pre = .ok s →
      s.binder.invalid_mask = 0 →
      exec_stream env base init_pass_state
          (pre ++ ComputeCommand.Dispatch g :: rest) =
        .fail ⟨.Dispatch false none, .Dispatch .MissingPipeline⟩
          { s with
            pending_discard_init_fixups := [],
            trace := s.trace ++ [HalCall.fixup_discarded_surfaces
              s.pending_discard_init_fixups] }) ∧
    (∀ s g p, s.pipeline = some p → s.binder.invalid_mask = 0 →
      env.flush_conflict s.binder.active_groups = false →
      g.1 ≤ env.max_compute_workgroups_per_dimension →
      g.2.1 ≤ env.max_compute_workgroups_per_dimension →
      g.2.2 ≤ env.max_compute_workgroups_per_dimension →
      exec_command env base s (.Dispatch g) =
        .ok { s with
              pending_discard_init_fixups := [],
              trace := s.trace ++
                [HalCall.fixup_discarded_surfaces
                  s.pending_discard_init_fixups,
                 HalCall.barrier_flush, HalCall.dispatch g] }) := by
  constructor
  · intro pre g rest s hnp hpre hmask
    have hpl : s.pipeline = none :=
      exec_stream_pipeline env base pre init_pass_state s hnp hpre
    rw [exec_stream_append_ok env base pre
      (ComputeCommand.Dispatch g :: rest) init_pass_state s hpre]
    simp [exec_stream, exec_command, is_ready, hmask, hpl]
  · intro s g p hp hmask hfl h1 h2 h3
    have hn1 : ¬ (env.max_compute_workgroups_per_dimension < g.1) :=
      not_lt.mpr h1
    have hn2 : ¬ (env.max_compute_workgroups_per_dimension < g.2.1) :=
      not_lt.mpr h2
    have hn3 : ¬ (env.max_compute_workgroups_per_dimension < g.2.2) :=
      not_lt.mpr h3
    simp [exec_command, is_ready, hmask, hp, hfl, hn1, hn2, hn3]

/-- Claim C9 witness: a lone `Dispatch` fails with missing pipeline; a
`Dispatch` with pipeline 5 bound succeeds. -/
theorem dispatch_requires_pipeline_witness :
    exec_stream env0 baseC9 init_pass_state baseC9.commands =
      .fail ⟨.Dispatch false none, .Dispatch .MissingPipeline⟩ sC9f ∧
    exec_command env0 baseC9 sC9s (.Dispatch (1, 1, 1)) = .ok sC9ok := by
  constructor
  · exact (dispatch_requires_pipeline env0 baseC9).1 [] (1, 1, 1) []
      init_pass_state (by simp) rfl rfl
  · exact (dispatch_requires_pipeline env0 baseC9).2 sC9s (1, 1, 1) 5
      rfl rfl rfl (by decide) (by decide) (by decide)

end Wgpu
